import Mathlib

/-!
Verification development for the capture-classify-segment-aggregate pipeline of a
desktop productivity tracker.

The definitions below are a shallow embedding of the TypeScript source:

* `analyzeWorkSessions`, `retryWithBackoff`, `classifyProductivityActivity`,
  `generateDailyInsights` from `electron/LLMHelper.ts`;
* `takeScreenshot` (bounded capture queues, hide/show discipline) from
  `electron/ScreenshotHelper.ts`;
* the pure aggregation core of `getDailyStats` from `electron/StorageHelper.ts`.

Modelling conventions:

* JavaScript timestamps are integers (milliseconds since epoch).  A record's
  `created_at` field is modelled by `CreatedAt`: `missing` stands for an absent or
  empty string (so that `new Date(created_at || 0)` yields the epoch, a valid time),
  `valid t` for a string that parses to instant `t`, and `invalid` for an
  unparsable string (`getTime()` is then `NaN`).  `NaN` comparisons are false,
  which the embedding mirrors by propagating `Option Int`.
* `Math.round(x)` for `x = d / 60000` is `⌊x + 1/2⌋`; on integers this is
  `(d + 30000) / 60000` with floor division (Lean's `Int` division by a positive
  divisor is floor division).  Fractional statistics use `ℚ`.
* Effectful collaborators (file reads, the LLM, the capture primitive) enter as
  explicit oracle arguments (`Except` values, or `Nat → Except _ _` indexed by the
  attempt number); functions additionally return observable traces (number of
  external calls, backoff delays, hide/show events).
* The JSON boundary is abstracted by `LlmText`: a response text either cleans and
  parses to a payload (`jsonOf`) or fails the clean/parse step (`junk`).
* The JavaScript comparator `timeA - timeB` used to sort records is `NaN`-valued on
  records with unparsable timestamps, and the resulting order is unspecified by the
  language; the embedding sorts by key `sortKey`, which places such records at the
  epoch.  All theorems that depend on the ordering assume valid timestamps.
-/

/-- Parse status of a record's `created_at` string, as observed through
`new Date(created_at || 0).getTime()`. -/
inductive CreatedAt
  | missing
  | valid (t : Int)
  | invalid
deriving DecidableEq, Repr

/-- Millisecond instant of a record, `none` when `getTime()` is `NaN`. -/
def jsTimeOf : CreatedAt → Option Int
  | .missing => some 0
  | .valid t => some t
  | .invalid => none

/-- Seven-field categorical classification result (`StorageHelper.ts`,
interface `ActivityRecord`). -/
structure ActivityRecord where
  app_classification : String
  goal_relevance : String
  cognitive_state : String
  context_switching : String
  attention_residue : String
  procrastination_signal : String
  energy_level : String
  created_at : CreatedAt
deriving DecidableEq, Repr

/-- Sort key used by the comparator in `analyzeWorkSessions`; records whose
timestamp does not parse get key 0 (their order is unspecified in the source). -/
def sortKey (r : ActivityRecord) : Int := (jsTimeOf r.created_at).getD 0

/-- Boolean comparator for the chronological sort of activity records. -/
def recLe (a b : ActivityRecord) : Bool := decide (sortKey a ≤ sortKey b)

/-- JavaScript `Math.round(d / 1000 / 60)` on an integer millisecond count:
round half toward positive infinity. -/
def jsRound (d : Int) : Int := (d + 30000) / 60000

/-- Characters of a string before the first occurrence of the separator used in
`app_classification.split(' - ')[0]`. -/
def takeUntilSep : List Char → List Char
  | [] => []
  | ' ' :: '-' :: ' ' :: _ => []
  | c :: rest => c :: takeUntilSep rest

/-- App-name component of a record: `app_classification.split(' - ')[0]`. -/
def appNameOf (r : ActivityRecord) : String :=
  String.mk (takeUntilSep r.app_classification.data)

/-- Reason tag of a time gap. -/
inductive GapReason
  | away_from_computer
  | app_closed
  | system_idle
deriving DecidableEq, Repr

/-- Derived work session (`LLMHelper.ts`, interface `WorkSession`); the insertion
ordered `appsUsed` list models the JavaScript `Set`. -/
structure WorkSession where
  id : String
  startTime : Int
  endTime : Int
  durationMinutes : Int
  activities : List ActivityRecord
  dominantCognitiveState : String
  appsUsed : List String
  isComplete : Bool
deriving DecidableEq, Repr

/-- Derived inactivity gap (`LLMHelper.ts`, interface `TimeGap`). -/
structure TimeGap where
  startTime : Int
  endTime : Int
  durationMinutes : Int
  reason : GapReason
deriving DecidableEq, Repr

/-- Coarse data-quality tag. -/
inductive DataQuality
  | high
  | medium
  | low
deriving DecidableEq, Repr

/-- Aggregate output of segmentation (`LLMHelper.ts`, interface `SessionAnalysis`). -/
structure SessionAnalysis where
  sessions : List WorkSession
  gaps : List TimeGap
  totalActiveMinutes : Int
  totalGapMinutes : Int
  dataQuality : DataQuality
  warnings : List String
deriving DecidableEq, Repr

/-- Mutable state of the segmentation loop in `analyzeWorkSessions`. -/
structure SegState where
  sessions : List WorkSession
  gaps : List TimeGap
  warnings : List String
  currentSession : Option WorkSession
  sessionCounter : Nat
deriving DecidableEq, Repr

/-- Initial loop state. -/
def initSegState : SegState :=
  { sessions := [], gaps := [], warnings := [], currentSession := none, sessionCounter := 0 }

/-- JavaScript `Set.add`: append if not already present (insertion order kept). -/
def addApp (apps : List String) (a : String) : List String :=
  if a ∈ apps then apps else apps ++ [a]

/-- Session closed on a split (`isComplete` set). -/
def closeSession (cs : WorkSession) : WorkSession := { cs with isComplete := true }

/-- The `TimeGap` emitted between previous time `pt` and current time `t`: reason
`app_closed` above 60 rounded minutes, else `away_from_computer`. -/
def mkGap (pt t : Int) : TimeGap :=
  { startTime := pt, endTime := t, durationMinutes := jsRound (t - pt),
    reason := if 60 < jsRound (t - pt) then .app_closed else .away_from_computer }

/-- Fresh one-record session started at time `t` with counter value `n`. -/
def freshSession (n : Nat) (a : ActivityRecord) (t : Int) : WorkSession :=
  { id := "session_" ++ toString n,
    startTime := t, endTime := t, durationMinutes := 0,
    activities := [a], dominantCognitiveState := a.cognitive_state,
    appsUsed := [appNameOf a], isComplete := false }

/-- Current session extended by a record at time `t`: new end time, recomputed
duration, appended record, app-set update. -/
def extendSession (cs : WorkSession) (a : ActivityRecord) (t : Int) : WorkSession :=
  { cs with
    endTime := t, activities := cs.activities ++ [a],
    durationMinutes := jsRound (t - cs.startTime),
    appsUsed := addApp cs.appsUsed (appNameOf a) }

/-- Gap check of the loop body: when the record is not the first and a session is
open, a rounded gap strictly above `MIN_GAP_MINUTES = 5` closes the session and
emits a `TimeGap`.  A previous record with an unparsable timestamp yields a
`NaN` gap, and `NaN > 5` is false, so no split happens. -/
def gapCheck (st : SegState) (prev : Option ActivityRecord) (t : Int) : SegState :=
  match prev, st.currentSession with
  | some p, some cs =>
    match jsTimeOf p.created_at with
    | none => st
    | some pt =>
      if 5 < jsRound (t - pt) then
        { st with
          sessions := st.sessions ++ [closeSession cs],
          gaps := st.gaps ++ [mkGap pt t],
          currentSession := none }
      else st
  | _, _ => st

/-- Second half of the loop body: start a fresh session or extend the current one
(with a warning when the updated duration exceeds `MAX_SESSION_HOURS = 4`). -/
def startOrExtend (st : SegState) (a : ActivityRecord) (t : Int) : SegState :=
  match st.currentSession with
  | none =>
    { st with
      sessionCounter := st.sessionCounter + 1,
      currentSession := some (freshSession (st.sessionCounter + 1) a t) }
  | some cs =>
    { st with
      currentSession := some (extendSession cs a t),
      warnings := st.warnings ++
        (if 240 < jsRound (t - cs.startTime) then
          ["Session " ++ cs.id ++ " exceeds 4 hours"] else []) }

/-- One iteration of the segmentation loop for the record at index `i` whose
predecessor in the sorted array is `prev`. -/
def segStep (st : SegState) (prev : Option ActivityRecord) (i : Nat)
    (a : ActivityRecord) : SegState :=
  match jsTimeOf a.created_at with
  | none => { st with warnings := st.warnings ++ ["Invalid timestamp at index " ++ toString i] }
  | some t => startOrExtend (gapCheck st prev t) a t

/-- The segmentation loop over the sorted record array. -/
def segWalk : SegState → Option ActivityRecord → Nat → List ActivityRecord → SegState
  | st, _, _, [] => st
  | st, prev, i, a :: rest => segWalk (segStep st prev i a) (some a) (i + 1) rest

/-- Session-segmentation engine (`LLMHelper.analyzeWorkSessions`): sort by
timestamp, walk accumulating sessions and gaps, close the trailing session as not
complete, total the durations and tag the data quality. -/
def analyzeWorkSessions (activities : List ActivityRecord) : SessionAnalysis :=
  if activities.isEmpty then
    { sessions := [], gaps := [], totalActiveMinutes := 0, totalGapMinutes := 0,
      dataQuality := .low, warnings := ["No activity data provided"] }
  else
    let sortedActivities := activities.mergeSort recLe
    let st := segWalk initSegState none 0 sortedActivities
    let sessions := st.sessions ++
      (match st.currentSession with
       | some cs => [{ cs with isComplete := false }]
       | none => [])
    { sessions := sessions,
      gaps := st.gaps,
      totalActiveMinutes := (sessions.map (·.durationMinutes)).sum,
      totalGapMinutes := (st.gaps.map (·.durationMinutes)).sum,
      dataQuality :=
        if 5 < st.warnings.length then .low
        else if 0 < st.warnings.length then .medium
        else if activities.length < 10 then .medium
        else .high,
      warnings := st.warnings }

/-- Membership of an instant in a session's closed time interval. -/
def inSession (s : WorkSession) (x : Int) : Prop := s.startTime ≤ x ∧ x ≤ s.endTime

/-- Membership of an instant in a gap's closed time interval. -/
def inGap (g : TimeGap) (x : Int) : Prop := g.startTime ≤ x ∧ x ≤ g.endTime

/-- An instant is covered by an analysis when it lies in some session or gap. -/
def coveredBy (A : SessionAnalysis) (x : Int) : Prop :=
  (∃ s ∈ A.sessions, inSession s x) ∨ (∃ g ∈ A.gaps, inGap g x)

/-- Two sessions are time-disjoint when no instant lies in both. -/
def sessionsDisjoint (s s' : WorkSession) : Prop :=
  ∀ x : Int, ¬(inSession s x ∧ inSession s' x)

/-- Strict interval ordering between sessions. -/
def endLtStart (s s' : WorkSession) : Prop := s.endTime < s'.startTime

/-- Invariant of the segmentation loop while records up to time `pt` (all with
valid timestamps, fed in chronological order) have been consumed: a session is
open, it ends at `pt`, closed sessions are strictly ordered before it, and the
sessions and gaps emitted so far tile the interval from `lo` to `pt` exactly. -/
def SegInv (lo : Int) (st : SegState) (pt : Int) : Prop :=
  ∃ cs, st.currentSession = some cs ∧ cs.endTime = pt ∧ cs.startTime ≤ pt ∧
    lo ≤ cs.startTime ∧
    (st.sessions ++ [cs]).Pairwise endLtStart ∧
    ∀ x : Int,
      ((∃ s ∈ st.sessions ++ [cs], inSession s x) ∨ ∃ g ∈ st.gaps, inGap g x) ↔
        lo ≤ x ∧ x ≤ pt

instance [DecidableEq ε] [DecidableEq α] : DecidableEq (Except ε α) := fun x y =>
  match x, y with
  | .ok a, .ok b => decidable_of_iff (a = b) (by simp)
  | .error a, .error b => decidable_of_iff (a = b) (by simp)
  | .ok _, .error _ => isFalse fun h => Except.noConfusion h
  | .error _, .ok _ => isFalse fun h => Except.noConfusion h

/-- Observable trace of one `retryWithBackoff` run: final outcome, number of times
the wrapped operation was invoked, and the backoff delays (ms) slept between
attempts. -/
structure RetryTrace (α : Type) where
  result : Except String α
  calls : Nat
  delays : List Nat
deriving DecidableEq, Repr

/-- Rendering of `lastError?.message` when the loop never ran. -/
def lastErrMsg : Option String → String
  | some e => e
  | none => "undefined"

/-- Loop of `LLMHelper.retryWithBackoff`: attempts numbered from 1; a failing
attempt below the cap sleeps `RETRY_DELAY_MS * 2 ^ (attempt - 1)` ms; exhausting
the cap raises an error carrying the last failure's message. -/
def retryLoop (op : Nat → Except String α) (maxRetries : Nat) :
    Nat → Nat → Option String → RetryTrace α
  | 0, _, lastErr =>
    { result := .error ("Operation failed after " ++ toString maxRetries ++
        " attempts: " ++ lastErrMsg lastErr),
      calls := 0, delays := [] }
  | fuel + 1, attempt, _ =>
    match op attempt with
    | .ok v => { result := .ok v, calls := 1, delays := [] }
    | .error e =>
      let rest := retryLoop op maxRetries fuel (attempt + 1) (some e)
      { result := rest.result,
        calls := rest.calls + 1,
        delays := (if attempt < maxRetries then [1000 * 2 ^ (attempt - 1)] else []) ++
          rest.delays }

/-- `LLMHelper.retryWithBackoff` with the fixed attempt cap
`MAX_PROMPT_RETRIES = 3` as default. -/
def retryWithBackoff (op : Nat → Except String α) (maxRetries : Nat := 3) : RetryTrace α :=
  retryLoop op maxRetries maxRetries 1 none

/-- Abstraction of the JSON boundary: an LLM response text either cleans and
parses (`cleanJsonResponse` followed by `JSON.parse`) to a payload, or fails that
step. -/
inductive LlmText (α : Type)
  | jsonOf (payload : α)
  | junk
deriving DecidableEq, Repr

/-- Composite of `cleanJsonResponse` and `JSON.parse` on a response text. -/
def cleanAndParse : LlmText α → Except String α
  | .jsonOf p => .ok p
  | .junk => .error "Response does not appear to be valid JSON"

/-- Parsed classification payload before validation; `none` fields model
missing/null JSON members. -/
structure RawActivity where
  app_classification : Option String
  goal_relevance : Option String
  cognitive_state : Option String
  context_switching : Option String
  attention_residue : Option String
  procrastination_signal : Option String
  energy_level : Option String
deriving DecidableEq, Repr

/-- `LLMHelper.validateActivityRecord`: all seven required fields present and
non-null. -/
def validateActivityRecord (r : RawActivity) : Bool :=
  r.app_classification.isSome && r.goal_relevance.isSome && r.cognitive_state.isSome &&
  r.context_switching.isSome && r.attention_residue.isSome &&
  r.procrastination_signal.isSome && r.energy_level.isSome

/-- The fixed fallback record returned when classification fails
(`classifyProductivityActivity`, catch branch). -/
def fallbackRecord : ActivityRecord :=
  { app_classification := "Unknown - Error in classification",
    goal_relevance := "work_unrelated",
    cognitive_state := "break",
    context_switching := "new_task",
    attention_residue := "multiple_contexts",
    procrastination_signal := "none",
    energy_level := "low_energy_tasks",
    created_at := .missing }

/-- Spread of a validated payload into an `ActivityRecord` (the store assigns
`created_at` later, so it is still missing here). -/
def activityFromRaw (r : RawActivity) : ActivityRecord :=
  { app_classification := r.app_classification.getD "",
    goal_relevance := r.goal_relevance.getD "",
    cognitive_state := r.cognitive_state.getD "",
    context_switching := r.context_switching.getD "",
    attention_residue := r.attention_residue.getD "",
    procrastination_signal := r.procrastination_signal.getD "",
    energy_level := r.energy_level.getD "",
    created_at := .missing }

/-- Outcome of one classification: the returned/thrown value and the number of
external classification calls performed. -/
structure ClassifyOutcome where
  result : Except String ActivityRecord
  llmCalls : Nat

/-- `LLMHelper.classifyProductivityActivity`: an empty image path throws before
the try block; inside it, the image read, the retried classification call, the
clean/parse step and the field validation each fall back to `fallbackRecord` on
failure instead of propagating. -/
def classifyProductivityActivity (imagePath : String)
    (readImage : Except String String)
    (gen : Nat → Except String (LlmText RawActivity)) : ClassifyOutcome :=
  if imagePath = "" then
    { result := .error "Invalid image path provided", llmCalls := 0 }
  else
    match readImage with
    | .error _ => { result := .ok fallbackRecord, llmCalls := 0 }
    | .ok _ =>
      let tr := retryWithBackoff gen 3
      match tr.result with
      | .error _ => { result := .ok fallbackRecord, llmCalls := tr.calls }
      | .ok txt =>
        match cleanAndParse txt with
        | .error _ => { result := .ok fallbackRecord, llmCalls := tr.calls }
        | .ok parsed =>
          if validateActivityRecord parsed then
            { result := .ok (activityFromRaw parsed), llmCalls := tr.calls }
          else
            { result := .ok fallbackRecord, llmCalls := tr.calls }

/-- Some stage of the classification pipeline after the path check fails. -/
def ClassifyFailure (readImage : Except String String)
    (gen : Nat → Except String (LlmText RawActivity)) : Prop :=
  (∃ e, readImage = .error e) ∨
  (∃ e, (retryWithBackoff gen 3).result = .error e) ∨
  (∃ txt e, (retryWithBackoff gen 3).result = .ok txt ∧ cleanAndParse txt = .error e) ∨
  (∃ txt parsed, (retryWithBackoff gen 3).result = .ok txt ∧
    cleanAndParse txt = .ok parsed ∧ validateActivityRecord parsed = false)

/-- Parsed narrative payload before validation. -/
structure RawInsights where
  executiveSummary : Option String
  productivityNarrative : Option String
  behavioralPatterns : Option String
  recommendations : Option String
deriving DecidableEq, Repr

/-- Truthy non-null string field (`!insights[field] || typeof ... !== 'string'`
rejects missing fields and empty strings). -/
def fieldOk : Option String → Bool
  | none => false
  | some s => !(s = "")

/-- Field validation of `generateDailyInsights`: the four narrative fields are
checked in order and the first falsy one is reported. -/
def validateInsights (r : RawInsights) : Except String (String × String × String × String) :=
  if !fieldOk r.executiveSummary then
    .error "Missing or invalid field in insights: executiveSummary"
  else if !fieldOk r.productivityNarrative then
    .error "Missing or invalid field in insights: productivityNarrative"
  else if !fieldOk r.behavioralPatterns then
    .error "Missing or invalid field in insights: behavioralPatterns"
  else if !fieldOk r.recommendations then
    .error "Missing or invalid field in insights: recommendations"
  else
    .ok (r.executiveSummary.getD "", r.productivityNarrative.getD "",
         r.behavioralPatterns.getD "", r.recommendations.getD "")

/-- Metadata attached to generated insights. -/
structure InsightsMetadata where
  generatedAt : String
  dataPoints : Nat
  sessionsAnalyzed : Nat
deriving DecidableEq, Repr

/-- Daily insights (`LLMHelper.ts`, interface `DailyInsights`). -/
structure DailyInsights where
  executiveSummary : String
  productivityNarrative : String
  behavioralPatterns : String
  recommendations : String
  metadata : InsightsMetadata
deriving DecidableEq, Repr

/-- Outcome of one `generateDailyInsights` run, with the observable narrative-call
trace. -/
structure InsightsOutcome where
  result : Except String DailyInsights
  llmCalls : Nat
  llmDelays : List Nat

/-- `LLMHelper.truncateActivitiesForPrompt`: above the cap
`MAX_ACTIVITIES_PER_PROMPT = 200`, keep every `step`-th record (fixed stride) and
flag the result as truncated. -/
def truncateActivitiesForPrompt (activities : List ActivityRecord) :
    List ActivityRecord × Bool :=
  if activities.length ≤ 200 then (activities, false)
  else
    let step := activities.length / 200
    (((activities.enum.filter fun p => p.1 % step = 0).map Prod.snd).take 200, true)

/-- Placeholder insight returned for an empty day. -/
def noDataInsights (now : String) : DailyInsights :=
  { executiveSummary := "No activity data recorded for this day.",
    productivityNarrative := "No work sessions were recorded.",
    behavioralPatterns := "Insufficient data to identify patterns.",
    recommendations := "Ensure the productivity tracker is running during work hours.",
    metadata := { generatedAt := now, dataPoints := 0, sessionsAnalyzed := 0 } }

/-- `LLMHelper.generateDailyInsights`: empty input returns the placeholder without
calling the narrative service; otherwise the service call is retried with backoff,
and any failure of the retry, the clean/parse step or the field validation is
rethrown wrapped as a terminal error. -/
def generateDailyInsights (activities : List ActivityRecord) (now : String)
    (gen : Nat → Except String (LlmText RawInsights)) : InsightsOutcome :=
  if activities.isEmpty then
    { result := .ok (noDataInsights now), llmCalls := 0, llmDelays := [] }
  else
    let analysis := analyzeWorkSessions activities
    let tr := retryWithBackoff gen 3
    match tr.result with
    | .error e =>
      { result := .error ("Daily insights generation failed: " ++ e),
        llmCalls := tr.calls, llmDelays := tr.delays }
    | .ok txt =>
      match cleanAndParse txt with
      | .error e =>
        { result := .error ("Daily insights generation failed: " ++ e),
          llmCalls := tr.calls, llmDelays := tr.delays }
      | .ok raw =>
        match validateInsights raw with
        | .error e =>
          { result := .error ("Daily insights generation failed: " ++ e),
            llmCalls := tr.calls, llmDelays := tr.delays }
        | .ok (es, pn, bp, rc) =>
          { result := .ok
              { executiveSummary := es, productivityNarrative := pn,
                behavioralPatterns := bp, recommendations := rc,
                metadata := { generatedAt := now,
                              dataPoints := activities.length,
                              sessionsAnalyzed := analysis.sessions.length } },
            llmCalls := tr.calls, llmDelays := tr.delays }

/-- Which context queue is active (`ScreenshotHelper.view`). -/
inductive View
  | queue
  | solutions
deriving DecidableEq, Repr

/-- Queue state of the screenshot helper: the two independent bounded capture
queues and the active view. -/
structure SSState where
  screenshotQueue : List String
  extraScreenshotQueue : List String
  view : View
deriving DecidableEq, Repr

/-- Observable side effects of one on-demand capture. -/
inductive SSEvent
  | hideWin
  | showWin
  | unlinkOld (p : String)
deriving DecidableEq, Repr

/-- Result of one on-demand capture: thrown error or new state plus returned path,
with the emitted effect trace. -/
structure SSResult where
  outcome : Except String (SSState × String)
  events : List SSEvent
deriving Repr

/-- Push of `ScreenshotHelper.takeScreenshot` onto one queue: append, then if the
size exceeds `MAX_SCREENSHOTS = 5` shift off the oldest entry and schedule its
file for deletion (a falsy shifted path is not unlinked; an unlink failure is
caught and ignored). -/
def pushBounded (q : List String) (newPath : String) : List String × List SSEvent :=
  let q2 := q ++ [newPath]
  if 5 < q2.length then
    (q2.tail,
     match q2.head? with
     | some removed => if removed = "" then [] else [.unlinkOld removed]
     | none => [])
  else (q2, [])

/-- `ScreenshotHelper.takeScreenshot`: hide the window, run the capture primitive,
push the new path onto the queue matching the view, then show the window.  There
is no try/finally around the capture, so a throwing capture propagates before the
show call. -/
def takeScreenshot (st : SSState) (newPath : String)
    (capture : Except String Unit) : SSResult :=
  match capture with
  | .error e => { outcome := .error e, events := [.hideWin] }
  | .ok _ =>
    match st.view with
    | .queue =>
      let pushed := pushBounded st.screenshotQueue newPath
      { outcome := .ok ({ st with screenshotQueue := pushed.1 }, newPath),
        events := [.hideWin] ++ pushed.2 ++ [.showWin] }
    | .solutions =>
      let pushed := pushBounded st.extraScreenshotQueue newPath
      { outcome := .ok ({ st with extraScreenshotQueue := pushed.1 }, newPath),
        events := [.hideWin] ++ pushed.2 ++ [.showWin] }

/-- A sequence of on-demand captures (path and capture outcome per step); a
throwing step leaves the queues unchanged. -/
def runCaptures (st : SSState) (steps : List (String × Except String Unit)) : SSState :=
  steps.foldl
    (fun s step =>
      match (takeScreenshot s step.1 step.2).outcome with
      | .ok (s2, _) => s2
      | .error _ => s)
    st

/-- JavaScript `Math.round` on a rational: round half toward positive infinity. -/
def jsRoundQ (q : ℚ) : ℤ := ⌊q + 1 / 2⌋

/-- Displayed day boundary of `getDailyStats`; the locale time formatting of the
source is abstracted to the underlying parsed `created_at` value. -/
inductive DayBoundary
  | noData
  | unknown
  | shownAt (c : CreatedAt)
deriving DecidableEq, Repr

/-- Quick daily statistics (`StorageHelper.getDailyStats` result shape). -/
structure DailyStats where
  totalRecords : Nat
  hoursTracked : ℚ
  focusPercentage : ℤ
  topApp : String
  dayStart : DayBoundary
  dayEnd : DayBoundary
deriving DecidableEq, Repr

/-- One step of the `Map`-based frequency count (insertion order preserved). -/
def bumpCount (m : List (String × Nat)) (app : String) : List (String × Nat) :=
  if m.any (·.1 = app) then
    m.map fun p => if p.1 = app then (p.1, p.2 + 1) else p
  else m ++ [(app, 1)]

/-- App frequency scan of `getDailyStats`, in first-seen order. -/
def countApps (activities : List ActivityRecord) : List (String × Nat) :=
  activities.foldl (fun m a => bumpCount m (appNameOf a)) []

/-- Comparator of the descending frequency sort (`(a, b) => b[1] - a[1]`); the
stable sort keeps first-seen order on ties. -/
def countGe (a b : String × Nat) : Bool := decide (b.2 ≤ a.2)

/-- Focus states counted by the focus percentage. -/
def isFocusState (a : ActivityRecord) : Bool :=
  a.cognitive_state = "deep_focus" || a.cognitive_state = "light_work"

/-- Day boundary shown for a record (`created_at ? format(created_at) : 'Unknown'`). -/
def boundaryOf (r : ActivityRecord) : DayBoundary :=
  match r.created_at with
  | .missing => .unknown
  | c => .shownAt c

/-- Pure aggregation core of `StorageHelper.getDailyStats` over the day's fetched
records: hours tracked from the fixed 45 s interval, rounded focus percentage,
most frequent app (`|| 'None'` also catches an empty app name), and the observed
first/last record boundaries.  Zero records yield the fixed placeholder. -/
def getDailyStats : List ActivityRecord → DailyStats
  | [] =>
    { totalRecords := 0, hoursTracked := 0, focusPercentage := 0,
      topApp := "None", dayStart := .noData, dayEnd := .noData }
  | a :: rest =>
    let activities := a :: rest
    let minutesTracked : ℚ := (activities.length * 45 : ℚ) / 60
    let hoursTracked : ℚ := minutesTracked / 60
    let focusCount := (activities.filter isFocusState).length
    let sortedCounts := (countApps activities).mergeSort countGe
    let topApp :=
      match sortedCounts.head? with
      | some (app, _) => if app = "" then "None" else app
      | none => "None"
    { totalRecords := activities.length,
      hoursTracked := (jsRoundQ (hoursTracked * 10) : ℚ) / 10,
      focusPercentage := jsRoundQ ((focusCount : ℚ) / (activities.length : ℚ) * 100),
      topApp := topApp,
      dayStart := boundaryOf a,
      dayEnd := boundaryOf (activities.getLast (by simp)) }

/-- Concrete record fixture at instant `t` ms. -/
def mkRec (t : Int) : ActivityRecord :=
  { app_classification := "VS Code - main.ts",
    goal_relevance := "goal_related",
    cognitive_state := "deep_focus",
    context_switching := "continuing_task",
    attention_residue := "clean_focus",
    procrastination_signal := "none",
    energy_level := "high_focus_work",
    created_at := .valid t }

/-- Sort key of the last record of the non-empty list `p :: l`. -/
def lastTime (p : ActivityRecord) : List ActivityRecord → Int
  | [] => sortKey p
  | a :: rest => lastTime a rest

/-- The gap emitted for two records exactly 61 minutes apart starting at the
epoch. -/
def gap61 : TimeGap :=
  { startTime := 0, endTime := 3660000, durationMinutes := 61, reason := .app_closed }

/-- Narrative oracle failing on attempts 1 and 2 and answering a well-formed
payload on attempt 3. -/
def genThirdOk : Nat → Except String (LlmText RawInsights) := fun i =>
  if i = 3 then
    .ok (.jsonOf { executiveSummary := some "summary text",
                   productivityNarrative := some "narrative text",
                   behavioralPatterns := some "patterns text",
                   recommendations := some "recommendations text" })
  else .error ("boom " ++ toString i)

/-- Narrative oracle failing every attempt. -/
def genAllFail : Nat → Except String (LlmText RawInsights) := fun i =>
  .error ("down " ++ toString i)

/-- Classification oracle failing every attempt. -/
def genClassifyFail : Nat → Except String (LlmText RawActivity) := fun _ =>
  .error "network error"

/-- Classification oracle succeeding immediately with a valid payload. -/
def genClassifyOk : Nat → Except String (LlmText RawActivity) := fun _ =>
  .ok (.jsonOf { app_classification := some "Figma - design",
                 goal_relevance := some "goal_related",
                 cognitive_state := some "deep_focus",
                 context_switching := some "continuing_task",
                 attention_residue := some "clean_focus",
                 procrastination_signal := some "none",
                 energy_level := some "high_focus_work" })

theorem retry_first_ok (op : Nat → Except String α) (v : α) (h : op 1 = .ok v) :
    retryWithBackoff op 3 = { result := .ok v, calls := 1, delays := [] } := by
  simp [retryWithBackoff, retryLoop, h]

theorem retry_third_ok (op : Nat → Except String α) (e1 e2 : String) (v : α)
    (h1 : op 1 = .error e1) (h2 : op 2 = .error e2) (h3 : op 3 = .ok v) :
    retryWithBackoff op 3 = { result := .ok v, calls := 3, delays := [1000, 2000] } := by
  simp [retryWithBackoff, retryLoop, h1, h2, h3]

theorem retry_all_fail (op : Nat → Except String α) (e1 e2 e3 : String)
    (h1 : op 1 = .error e1) (h2 : op 2 = .error e2) (h3 : op 3 = .error e3) :
    retryWithBackoff op 3 =
      { result := .error ("Operation failed after 3 attempts: " ++ e3),
        calls := 3, delays := [1000, 2000] } := by
  have hpre : "Operation failed after " ++ toString (3 : Nat) ++ " attempts: " =
      "Operation failed after 3 attempts: " := by decide
  simp [retryWithBackoff, retryLoop, h1, h2, h3, lastErrMsg, hpre]

/-- Claim C10: calling the classifier with an empty (or, in the source, non-string)
image path throws "Invalid image path provided" to the caller instead of returning
the fallback record; the no-exception fallback guarantee starts only after this
validation. -/
theorem classify_empty_path_throws (readImage : Except String String)
    (gen : Nat → Except String (LlmText RawActivity)) :
    (classifyProductivityActivity "" readImage gen).result =
      .error "Invalid image path provided" := rfl

/-- Claim C4: for a non-empty image path, whatever the oracles do the classifier
never throws, and if the image read, the (retried) classification call, the
clean/parse step or the seven-field validation fails, it returns exactly the
fixed fallback record. -/
theorem classify_failure_fallback (imagePath : String) (hpath : imagePath ≠ "")
    (readImage : Except String String) (gen : Nat → Except String (LlmText RawActivity)) :
    (∃ r, (classifyProductivityActivity imagePath readImage gen).result = .ok r) ∧
    (ClassifyFailure readImage gen →
      (classifyProductivityActivity imagePath readImage gen).result = .ok fallbackRecord) := by
  unfold classifyProductivityActivity
  rw [if_neg hpath]
  cases readImage with
  | error e => exact ⟨⟨fallbackRecord, rfl⟩, fun _ => rfl⟩
  | ok d =>
    rcases hres : (retryWithBackoff gen 3).result with e | txt
    · exact ⟨⟨fallbackRecord, by simp [hres]⟩, fun _ => by simp [hres]⟩
    · cases txt with
      | junk =>
        exact ⟨⟨fallbackRecord, by simp [hres, cleanAndParse]⟩,
               fun _ => by simp [hres, cleanAndParse]⟩
      | jsonOf p =>
        by_cases hv : validateActivityRecord p
        · refine ⟨⟨activityFromRaw p, by simp [hres, cleanAndParse, hv]⟩, ?_⟩
          intro hfail
          rcases hfail with ⟨e, he⟩ | ⟨e, he⟩ | ⟨t, e, ht, he⟩ | ⟨t, q, ht, hq, hvf⟩
          · simp at he
          · rw [hres] at he; simp at he
          · rw [hres] at ht
            injection ht with ht
            subst ht
            simp [cleanAndParse] at he
          · rw [hres] at ht
            injection ht with ht
            subst ht
            injection hq with hq
            subst hq
            rw [hv] at hvf
            simp at hvf
        · exact ⟨⟨fallbackRecord, by simp [hres, cleanAndParse, hv]⟩,
                 fun _ => by simp [hres, cleanAndParse, hv]⟩

/-- Witness for claim C4 at a concrete failing oracle: an unreadable image yields
the fallback record. -/
theorem classify_failure_fallback_witness :
    (classifyProductivityActivity "shot.png" (.error "unreadable") genClassifyOk).result =
      .ok fallbackRecord :=
  (classify_failure_fallback "shot.png" (by decide) (.error "unreadable") genClassifyOk).2
    (Or.inl ⟨"unreadable", rfl⟩)

/-- Counterexample to claim C7: with an always-failing classification service the
classification path performs its external call 3 times for one capture, not
exactly once. -/
theorem classification_call_not_once :
    (classifyProductivityActivity "shot.png" (.ok "bytes") genClassifyFail).llmCalls = 3 ∧
    (classifyProductivityActivity "shot.png" (.ok "bytes") genClassifyFail).llmCalls ≠ 1 := by
  decide

/-- Claim C7 as amended: the classification call is wrapped in the same
retry-with-backoff helper as the narrative call (up to 3 attempts); a first-try
success costs one call, and when all 3 attempts fail the terminal retry error is
absorbed into the fallback record rather than propagated. -/
theorem classification_retry_semantics (imagePath : String) (hpath : imagePath ≠ "")
    (imageData : String) (gen : Nat → Except String (LlmText RawActivity)) :
    (∀ v, gen 1 = .ok v →
      (classifyProductivityActivity imagePath (.ok imageData) gen).llmCalls = 1) ∧
    ((∃ e1 e2 e3, gen 1 = .error e1 ∧ gen 2 = .error e2 ∧ gen 3 = .error e3) →
      (classifyProductivityActivity imagePath (.ok imageData) gen).llmCalls = 3 ∧
      (classifyProductivityActivity imagePath (.ok imageData) gen).result =
        .ok fallbackRecord) := by
  unfold classifyProductivityActivity
  rw [if_neg hpath]
  constructor
  · intro v hv
    rw [retry_first_ok gen v hv]
    cases v with
    | junk => simp [cleanAndParse]
    | jsonOf p =>
      by_cases hvp : validateActivityRecord p <;> simp [cleanAndParse, hvp]
  · rintro ⟨e1, e2, e3, h1, h2, h3⟩
    rw [retry_all_fail gen e1 e2 e3 h1 h2 h3]
    simp

/-- Witness for the amended claim C7 at a concrete always-failing service. -/
theorem classification_retry_semantics_witness :
    (classifyProductivityActivity "shot.png" (.ok "bytes") genClassifyFail).llmCalls = 3 ∧
    (classifyProductivityActivity "shot.png" (.ok "bytes") genClassifyFail).result =
      .ok fallbackRecord :=
  (classification_retry_semantics "shot.png" (by decide) "bytes" genClassifyFail).2
    ⟨"network error", "network error", "network error", rfl, rfl, rfl⟩

theorem pushBounded_len (q : List String) (p : String) (h : q.length ≤ 5) :
    (pushBounded q p).1.length ≤ 5 := by
  simp only [pushBounded]
  split
  · simp only [List.length_tail, List.length_append, List.length_cons, List.length_nil]
    omega
  · next h5 =>
    simp only [List.length_append, List.length_cons, List.length_nil] at h5 ⊢
    omega

/-- Claim C6: in the narrative-synthesis path, failures on attempts 1 and 2
followed by a success on attempt 3 yield the successful result after exactly 3
calls (no 4th), with the backoff delays doubling from the 1000 ms base; and when
all 3 attempts fail a terminal error carrying the last failure's message is
raised. -/
theorem generateDailyInsights_retry (acts : List ActivityRecord) (hne : acts ≠ [])
    (now e1 e2 d1 d2 d3 s1 s2 s3 s4 : String)
    (hs1 : s1 ≠ "") (hs2 : s2 ≠ "") (hs3 : s3 ≠ "") (hs4 : s4 ≠ "")
    (g gBad : Nat → Except String (LlmText RawInsights))
    (hg1 : g 1 = .error e1) (hg2 : g 2 = .error e2)
    (hg3 : g 3 = .ok (.jsonOf ⟨some s1, some s2, some s3, some s4⟩))
    (hb1 : gBad 1 = .error d1) (hb2 : gBad 2 = .error d2) (hb3 : gBad 3 = .error d3) :
    (generateDailyInsights acts now g).llmCalls = 3 ∧
    (generateDailyInsights acts now g).llmDelays = [1000, 2000] ∧
    (generateDailyInsights acts now g).result = .ok
      { executiveSummary := s1, productivityNarrative := s2,
        behavioralPatterns := s3, recommendations := s4,
        metadata := { generatedAt := now, dataPoints := acts.length,
                      sessionsAnalyzed := (analyzeWorkSessions acts).sessions.length } } ∧
    (generateDailyInsights acts now gBad).llmCalls = 3 ∧
    (generateDailyInsights acts now gBad).result =
      .error ("Daily insights generation failed: Operation failed after 3 attempts: " ++ d3) := by
  have hemp : acts.isEmpty = false := by simpa [List.isEmpty_iff] using hne
  have hok := retry_third_ok g e1 e2 (LlmText.jsonOf ⟨some s1, some s2, some s3, some s4⟩)
    hg1 hg2 hg3
  have hbad := retry_all_fail gBad d1 d2 d3 hb1 hb2 hb3
  have hcat : "Daily insights generation failed: " ++
      "Operation failed after 3 attempts: " =
      "Daily insights generation failed: Operation failed after 3 attempts: " := by decide
  unfold generateDailyInsights
  simp only [hemp, Bool.false_eq_true, if_false, hok, hbad, cleanAndParse,
    validateInsights, fieldOk, hs1, hs2, hs3, hs4]
  simp [hs1, hs2, hs3, hs4]
  rw [← String.append_assoc, hcat]

/-- Witness for claim C6 at concrete oracles and a one-record day. -/
theorem generateDailyInsights_retry_witness :
    (generateDailyInsights [mkRec 0] "2026-01-01T00:00:00Z" genThirdOk).llmCalls = 3 ∧
    (generateDailyInsights [mkRec 0] "2026-01-01T00:00:00Z" genThirdOk).llmDelays =
      [1000, 2000] ∧
    (generateDailyInsights [mkRec 0] "2026-01-01T00:00:00Z" genAllFail).result =
      .error ("Daily insights generation failed: Operation failed after 3 attempts: " ++
        "down 3") := by
  have h := generateDailyInsights_retry [mkRec 0] (by decide) "2026-01-01T00:00:00Z"
    "boom 1" "boom 2" "down 1" "down 2" "down 3" "summary text" "narrative text"
    "patterns text" "recommendations text" (by decide) (by decide) (by decide) (by decide)
    genThirdOk genAllFail (by decide) (by decide) (by decide) (by decide) (by decide)
    (by decide)
  exact ⟨h.1, h.2.1, h.2.2.2.2⟩

/-- Counterexample to claim C5: when the capture primitive throws, the external
hide effect has been invoked but the show effect never runs before the call
completes (the source has no try/finally around the capture). -/
theorem takeScreenshot_show_skipped :
    (takeScreenshot { screenshotQueue := [], extraScreenshotQueue := [], view := .queue }
        "shot.png" (.error "capture failed")).events = [.hideWin] ∧
    SSEvent.hideWin ∈
      (takeScreenshot { screenshotQueue := [], extraScreenshotQueue := [], view := .queue }
        "shot.png" (.error "capture failed")).events ∧
    SSEvent.showWin ∉
      (takeScreenshot { screenshotQueue := [], extraScreenshotQueue := [], view := .queue }
        "shot.png" (.error "capture failed")).events := by
  decide

/-- Claim C5 as amended: every on-demand capture invokes hide first, and the show
effect is invoked exactly when the capture primitive succeeds; when it throws,
the error propagates with the window still hidden. -/
theorem takeScreenshot_hide_show_amended (st : SSState) (p : String)
    (capture : Except String Unit) :
    (takeScreenshot st p capture).events.head? = some .hideWin ∧
    (SSEvent.showWin ∈ (takeScreenshot st p capture).events ↔ ∃ u, capture = .ok u) := by
  cases capture with
  | error e => simp [takeScreenshot]
  | ok u => cases hv : st.view <;> simp [takeScreenshot, hv]

/-- Claim C8: pushing a 6th capture onto a full 5-entry queue evicts exactly the
oldest entry, schedules its file for deletion and keeps captures 2..6 in order;
and any sequence of pushes keeps both queues at 5 entries or fewer. -/
theorem capture_queue_bounded_eviction :
    ((takeScreenshot
        { screenshotQueue := ["p1", "p2", "p3", "p4", "p5"],
          extraScreenshotQueue := [], view := .queue } "p6" (.ok ())).outcome =
      .ok ({ screenshotQueue := ["p2", "p3", "p4", "p5", "p6"],
             extraScreenshotQueue := [], view := .queue }, "p6") ∧
     (takeScreenshot
        { screenshotQueue := ["p1", "p2", "p3", "p4", "p5"],
          extraScreenshotQueue := [], view := .queue } "p6" (.ok ())).events =
      [.hideWin, .unlinkOld "p1", .showWin]) ∧
    ∀ (steps : List (String × Except String Unit)) (st : SSState),
      st.screenshotQueue.length ≤ 5 → st.extraScreenshotQueue.length ≤ 5 →
      (runCaptures st steps).screenshotQueue.length ≤ 5 ∧
      (runCaptures st steps).extraScreenshotQueue.length ≤ 5 := by
  constructor
  · decide
  · intro steps
    induction steps with
    | nil => exact fun st h1 h2 => ⟨h1, h2⟩
    | cons step rest ih =>
      intro st h1 h2
      have hstep : ∀ s : SSState, s.screenshotQueue.length ≤ 5 →
          s.extraScreenshotQueue.length ≤ 5 →
          (match (takeScreenshot s step.1 step.2).outcome with
           | .ok (s2, _) => s2
           | .error _ => s).screenshotQueue.length ≤ 5 ∧
          (match (takeScreenshot s step.1 step.2).outcome with
           | .ok (s2, _) => s2
           | .error _ => s).extraScreenshotQueue.length ≤ 5 := by
        intro s hq he
        cases hc : step.2 with
        | error e => simp [takeScreenshot, hc, hq, he]
        | ok u =>
          cases hv : s.view <;>
            simp [takeScreenshot, hc, hv, pushBounded_len, hq, he]
      have := hstep st h1 h2
      simpa [runCaptures] using ih _ this.1 this.2

/-- Witness for claim C8 at a concrete capture sequence from empty queues. -/
theorem capture_queue_bounded_eviction_witness :
    (runCaptures { screenshotQueue := [], extraScreenshotQueue := [], view := .queue }
      [("a.png", .ok ())]).screenshotQueue.length ≤ 5 :=
  (capture_queue_bounded_eviction.2 [("a.png", .ok ())]
    { screenshotQueue := [], extraScreenshotQueue := [], view := .queue }
    (by decide) (by decide)).1

/-- Claim C3: for non-empty input the data-quality tag is low when the warning
count exceeds 5, medium when there is any warning or fewer than 10 input records,
and high otherwise; and the empty input yields, without throwing, zero sessions,
zero gaps, zero totals, low quality and a non-empty warning list. -/
theorem dataQuality_and_empty_input (acts : List ActivityRecord) (hne : acts ≠ []) :
    ((analyzeWorkSessions acts).dataQuality =
      if 5 < (analyzeWorkSessions acts).warnings.length then DataQuality.low
      else if 0 < (analyzeWorkSessions acts).warnings.length ∨ acts.length < 10 then
        DataQuality.medium
      else DataQuality.high) ∧
    (analyzeWorkSessions []).sessions = [] ∧
    (analyzeWorkSessions []).gaps = [] ∧
    (analyzeWorkSessions []).totalActiveMinutes = 0 ∧
    (analyzeWorkSessions []).totalGapMinutes = 0 ∧
    (analyzeWorkSessions []).dataQuality = DataQuality.low ∧
    (analyzeWorkSessions []).warnings ≠ [] := by
  refine ⟨?_, by decide, by decide, by decide, by decide, by decide, by decide⟩
  have hemp : acts.isEmpty = false := by simpa [List.isEmpty_iff] using hne
  unfold analyzeWorkSessions
  simp only [hemp, Bool.false_eq_true, if_false]
  by_cases h5 : 5 < (segWalk initSegState none 0 (acts.mergeSort recLe)).warnings.length <;>
    by_cases h0 : 0 < (segWalk initSegState none 0 (acts.mergeSort recLe)).warnings.length <;>
    by_cases hlen : acts.length < 10 <;>
    simp [h5, h0, hlen]

/-- Witness for claim C3 at a concrete one-record day (quality medium: no warnings
and fewer than 10 records). -/
theorem dataQuality_and_empty_input_witness :
    (analyzeWorkSessions [mkRec 0]).dataQuality =
      if 5 < (analyzeWorkSessions [mkRec 0]).warnings.length then DataQuality.low
      else if 0 < (analyzeWorkSessions [mkRec 0]).warnings.length ∨
          ([mkRec 0] : List ActivityRecord).length < 10 then DataQuality.medium
      else DataQuality.high :=
  (dataQuality_and_empty_input [mkRec 0] (by decide)).1

/-- Claim C9: for a non-empty day, hours tracked equal the record count times 45 s
over 3600, rounded to one decimal (80 records give exactly 1.0), the focus
percentage is the rounded share of deep_focus/light_work records, and zero
records yield the fixed placeholder rather than an error. -/
theorem getDailyStats_formulas :
    (∀ acts : List ActivityRecord, acts ≠ [] →
      (getDailyStats acts).hoursTracked =
        (jsRoundQ ((acts.length * 45 : ℚ) / 3600 * 10) : ℚ) / 10 ∧
      (getDailyStats acts).focusPercentage =
        jsRoundQ (((acts.filter isFocusState).length : ℚ) / (acts.length : ℚ) * 100)) ∧
    (getDailyStats (List.replicate 80 (mkRec 0))).hoursTracked = 1 ∧
    getDailyStats [] =
      { totalRecords := 0, hoursTracked := 0, focusPercentage := 0,
        topApp := "None", dayStart := .noData, dayEnd := .noData } := by
  have main : ∀ acts : List ActivityRecord, acts ≠ [] →
      (getDailyStats acts).hoursTracked =
        (jsRoundQ ((acts.length * 45 : ℚ) / 3600 * 10) : ℚ) / 10 ∧
      (getDailyStats acts).focusPercentage =
        jsRoundQ (((acts.filter isFocusState).length : ℚ) / (acts.length : ℚ) * 100) := by
    intro acts hne
    match acts with
    | a :: rest =>
      simp only [getDailyStats]
      constructor
      · have harg : ((((a :: rest).length * 45 : ℚ) / 60) / 60) * 10 =
            ((a :: rest).length * 45 : ℚ) / 3600 * 10 := by ring
        rw [harg]
      · trivial
  refine ⟨main, ?_, rfl⟩
  have h80 := (main (List.replicate 80 (mkRec 0)) (by simp)).1
  rw [h80]
  norm_num [jsRoundQ]

/-- Witness for claim C9 at a concrete one-record day. -/
theorem getDailyStats_formulas_witness :
    (getDailyStats [mkRec 0]).hoursTracked =
      (jsRoundQ ((([mkRec 0] : List ActivityRecord).length * 45 : ℚ) / 3600 * 10) : ℚ) / 10 :=
  (getDailyStats_formulas.1 [mkRec 0] (by decide)).1

theorem startOrExtend_gaps (st : SegState) (a : ActivityRecord) (t : Int) :
    (startOrExtend st a t).gaps = st.gaps := by
  unfold startOrExtend
  cases st.currentSession <;> simp

theorem gapCheck_gaps (st : SegState) (prev : Option ActivityRecord) (t : Int)
    (h : ∀ g ∈ st.gaps, 5 < g.durationMinutes) :
    ∀ g ∈ (gapCheck st prev t).gaps, 5 < g.durationMinutes := by
  unfold gapCheck
  split
  · next p cs =>
    split
    · exact h
    · next pt =>
      split
      · next h5 =>
        intro g hg
        simp only [List.mem_append, List.mem_singleton] at hg
        rcases hg with hg | hg
        · exact h g hg
        · subst hg; exact h5
      · exact h
  · exact h

theorem segStep_gaps (st : SegState) (prev : Option ActivityRecord) (i : Nat)
    (a : ActivityRecord) (h : ∀ g ∈ st.gaps, 5 < g.durationMinutes) :
    ∀ g ∈ (segStep st prev i a).gaps, 5 < g.durationMinutes := by
  unfold segStep
  split
  · simpa using h
  · rw [startOrExtend_gaps]
    exact gapCheck_gaps st prev _ h

theorem segWalk_gaps (rest : List ActivityRecord) :
    ∀ (st : SegState) (prev : Option ActivityRecord) (i : Nat),
      (∀ g ∈ st.gaps, 5 < g.durationMinutes) →
      ∀ g ∈ (segWalk st prev i rest).gaps, 5 < g.durationMinutes := by
  induction rest with
  | nil => intro st prev i h; simpa [segWalk] using h
  | cons a rest ih =>
    intro st prev i h
    exact ih (segStep st prev i a) (some a) (i + 1) (segStep_gaps st prev i a h)

theorem analyzeWorkSessions_gaps_gt5 (acts : List ActivityRecord) :
    ∀ g ∈ (analyzeWorkSessions acts).gaps, 5 < g.durationMinutes := by
  unfold analyzeWorkSessions
  split
  · simp
  · intro g hg
    simp only at hg
    exact segWalk_gaps (acts.mergeSort recLe) initSegState none 0 (by simp [initSegState]) g hg

/-- Claim C2: two consecutive records exactly 5 minutes apart stay in one session
(the split threshold is a strict "> 5"); an emitted gap of exactly 60 minutes is
tagged away_from_computer while 61 minutes is tagged app_closed; and every
emitted gap's duration strictly exceeds 5 minutes. -/
theorem gap_threshold_and_reason_boundaries :
    ((analyzeWorkSessions [mkRec 0, mkRec 300000]).sessions.length = 1 ∧
     ((analyzeWorkSessions [mkRec 0, mkRec 300000]).sessions.map
        fun s => s.activities.length) = [2] ∧
     (analyzeWorkSessions [mkRec 0, mkRec 300000]).gaps = []) ∧
    ((analyzeWorkSessions [mkRec 0, mkRec 3600000]).gaps.map TimeGap.reason =
       [.away_from_computer] ∧
     (analyzeWorkSessions [mkRec 0, mkRec 3600000]).gaps.map TimeGap.durationMinutes =
       [60]) ∧
    ((analyzeWorkSessions [mkRec 0, mkRec 3660000]).gaps.map TimeGap.reason =
       [.app_closed] ∧
     (analyzeWorkSessions [mkRec 0, mkRec 3660000]).gaps.map TimeGap.durationMinutes =
       [61]) ∧
    ∀ acts : List ActivityRecord,
      ∀ g ∈ (analyzeWorkSessions acts).gaps, 5 < g.durationMinutes := by
  have hms5 : ([mkRec 0, mkRec 300000] : List ActivityRecord).mergeSort recLe =
      [mkRec 0, mkRec 300000] := List.mergeSort_of_sorted (by decide)
  have hms60 : ([mkRec 0, mkRec 3600000] : List ActivityRecord).mergeSort recLe =
      [mkRec 0, mkRec 3600000] := List.mergeSort_of_sorted (by decide)
  have hms61 : ([mkRec 0, mkRec 3660000] : List ActivityRecord).mergeSort recLe =
      [mkRec 0, mkRec 3660000] := List.mergeSort_of_sorted (by decide)
  refine ⟨⟨?_, ?_, ?_⟩, ⟨?_, ?_⟩, ⟨?_, ?_⟩, fun acts => analyzeWorkSessions_gaps_gt5 acts⟩ <;>
    simp only [analyzeWorkSessions, hms5, hms60, hms61] <;> decide

/-- Witness for claim C2: the 61-minute gap emitted in the concrete boundary run
has duration strictly above 5 minutes. -/
theorem gap_threshold_and_reason_boundaries_witness : 5 < gap61.durationMinutes := by
  have hms : ([mkRec 0, mkRec 3660000] : List ActivityRecord).mergeSort recLe =
      [mkRec 0, mkRec 3660000] := List.mergeSort_of_sorted (by decide)
  have hmem : gap61 ∈ (analyzeWorkSessions [mkRec 0, mkRec 3660000]).gaps := by
    simp only [analyzeWorkSessions, hms]
    decide
  exact gap_threshold_and_reason_boundaries.2.2.2 [mkRec 0, mkRec 3660000] gap61 hmem

theorem gapCheck_none (st : SegState) (t : Int) : gapCheck st none t = st := rfl

theorem gapCheck_eq (st : SegState) (p : ActivityRecord) (cs : WorkSession) (pt t : Int)
    (hcs : st.currentSession = some cs) (hp : jsTimeOf p.created_at = some pt) :
    gapCheck st (some p) t =
      if 5 < jsRound (t - pt) then
        { st with
          sessions := st.sessions ++ [closeSession cs],
          gaps := st.gaps ++ [mkGap pt t],
          currentSession := none }
      else st := by
  obtain ⟨S, G, W, cso, n⟩ := st
  simp only at hcs
  subst hcs
  obtain ⟨f1, f2, f3, f4, f5, f6, f7, c⟩ := p
  cases c with
  | missing => injection hp with hp; subst hp; rfl
  | valid t2 => injection hp with hp; subst hp; rfl
  | invalid => exact Option.noConfusion hp

theorem startOrExtend_none (st : SegState) (a : ActivityRecord) (t : Int)
    (h : st.currentSession = none) :
    startOrExtend st a t =
      { st with
        sessionCounter := st.sessionCounter + 1,
        currentSession := some (freshSession (st.sessionCounter + 1) a t) } := by
  obtain ⟨S, G, W, cso, n⟩ := st
  simp only at h
  subst h
  rfl

theorem startOrExtend_some (st : SegState) (a : ActivityRecord) (t : Int) (cs : WorkSession)
    (h : st.currentSession = some cs) :
    startOrExtend st a t =
      { st with
        currentSession := some (extendSession cs a t),
        warnings := st.warnings ++
          (if 240 < jsRound (t - cs.startTime) then
            ["Session " ++ cs.id ++ " exceeds 4 hours"] else []) } := by
  obtain ⟨S, G, W, cso, n⟩ := st
  simp only at h
  subst h
  rfl

theorem segStep_some_time (st : SegState) (prev : Option ActivityRecord) (i : Nat)
    (a : ActivityRecord) (t : Int) (ha : jsTimeOf a.created_at = some t) :
    segStep st prev i a = startOrExtend (gapCheck st prev t) a t := by
  obtain ⟨f1, f2, f3, f4, f5, f6, f7, c⟩ := a
  cases c with
  | missing => injection ha with ha; subst ha; rfl
  | valid t2 => injection ha with ha; subst ha; rfl
  | invalid => exact Option.noConfusion ha

theorem lt_of_jsRound_gt5 {d : Int} (h : 5 < jsRound d) : 0 < d := by
  unfold jsRound at h
  omega

theorem inSession_closeSession (cs : WorkSession) (x : Int) :
    inSession (closeSession cs) x ↔ inSession cs x := Iff.rfl

theorem inSession_freshSession (n : Nat) (a : ActivityRecord) (t x : Int) :
    inSession (freshSession n a t) x ↔ t ≤ x ∧ x ≤ t := Iff.rfl

theorem inSession_extendSession (cs : WorkSession) (a : ActivityRecord) (t x : Int) :
    inSession (extendSession cs a t) x ↔ cs.startTime ≤ x ∧ x ≤ t := Iff.rfl

theorem inGap_mkGap (pt t x : Int) : inGap (mkGap pt t) x ↔ pt ≤ x ∧ x ≤ t := Iff.rfl

theorem endLtStart_disjoint {s s' : WorkSession} (h : endLtStart s s') :
    sessionsDisjoint s s' := by
  intro x hx
  obtain ⟨⟨h1, h2⟩, h3, h4⟩ := hx
  unfold endLtStart at h
  omega

theorem segStep_inv (lo pt ta : Int) (st : SegState) (p a : ActivityRecord) (i : Nat)
    (hp : jsTimeOf p.created_at = some pt) (ha : jsTimeOf a.created_at = some ta)
    (hle : pt ≤ ta) (hinv : SegInv lo st pt) :
    SegInv lo (segStep st (some p) i a) ta := by
  obtain ⟨cs, hcs, hend, hstart, hlo, hpair, hcov⟩ := hinv
  rw [segStep_some_time st (some p) i a ta ha, gapCheck_eq st p cs pt ta hcs hp]
  obtain ⟨hS, _, hrel⟩ := List.pairwise_append.mp hpair
  by_cases hsplit : 5 < jsRound (ta - pt)
  · rw [if_pos hsplit, startOrExtend_none _ a ta rfl]
    have hptlt : pt < ta := by have := lt_of_jsRound_gt5 hsplit; omega
    refine ⟨freshSession (st.sessionCounter + 1) a ta, rfl, rfl, le_refl ta,
      le_trans hlo (le_trans hstart hle), ?_, ?_⟩
    · rw [List.pairwise_append]
      refine ⟨?_, List.pairwise_singleton _ _, ?_⟩
      · rw [List.pairwise_append]
        refine ⟨hS, List.pairwise_singleton _ _, ?_⟩
        intro s hs b hb
        rw [List.mem_singleton] at hb
        subst hb
        exact hrel s hs cs (List.mem_singleton_self _)
      · intro s hs b hb
        rw [List.mem_singleton] at hb
        subst hb
        rcases List.mem_append.mp hs with hs | hs
        · have h1 := hrel s hs cs (List.mem_singleton_self _)
          unfold endLtStart at h1 ⊢
          simp only [freshSession]
          omega
        · rw [List.mem_singleton] at hs
          subst hs
          unfold endLtStart
          simp only [closeSession, freshSession]
          omega
    · intro x
      have hold := hcov x
      constructor
      · rintro (⟨s, hs, hsx⟩ | ⟨g, hg, hgx⟩)
        · rcases List.mem_append.mp hs with hs | hs
          · rcases List.mem_append.mp hs with hs | hs
            · have h2 := hold.mp (Or.inl ⟨s, List.mem_append_left _ hs, hsx⟩)
              exact ⟨h2.1, le_trans h2.2 hle⟩
            · rw [List.mem_singleton] at hs
              subst hs
              have h2 := hold.mp
                (Or.inl ⟨cs, List.mem_append_right _ (List.mem_singleton_self _), hsx⟩)
              exact ⟨h2.1, le_trans h2.2 hle⟩
          · rw [List.mem_singleton] at hs
            subst hs
            rw [inSession_freshSession] at hsx
            have : lo ≤ ta := le_trans hlo (le_trans hstart hle)
            omega
        · rcases List.mem_append.mp hg with hg | hg
          · have h2 := hold.mp (Or.inr ⟨g, hg, hgx⟩)
            exact ⟨h2.1, le_trans h2.2 hle⟩
          · rw [List.mem_singleton] at hg
            subst hg
            rw [inGap_mkGap] at hgx
            have : lo ≤ pt := le_trans hlo hstart
            omega
      · rintro ⟨hx1, hx2⟩
        by_cases hxp : x ≤ pt
        · rcases hold.mpr ⟨hx1, hxp⟩ with (⟨s, hs, hsx⟩ | ⟨g, hg, hgx⟩)
          · rcases List.mem_append.mp hs with hs | hs
            · exact Or.inl ⟨s, List.mem_append_left _ (List.mem_append_left _ hs), hsx⟩
            · rw [List.mem_singleton] at hs
              rw [hs] at hsx
              exact Or.inl ⟨closeSession cs,
                List.mem_append_left _ (List.mem_append_right _ (List.mem_singleton_self _)),
                hsx⟩
          · exact Or.inr ⟨g, List.mem_append_left _ hg, hgx⟩
        · push_neg at hxp
          exact Or.inr ⟨mkGap pt ta, List.mem_append_right _ (List.mem_singleton_self _),
            le_of_lt hxp, hx2⟩
  · rw [if_neg hsplit, startOrExtend_some st a ta cs hcs]
    refine ⟨extendSession cs a ta, rfl, rfl, le_trans hstart hle, hlo, ?_, ?_⟩
    · rw [List.pairwise_append]
      refine ⟨hS, List.pairwise_singleton _ _, ?_⟩
      intro s hs b hb
      rw [List.mem_singleton] at hb
      subst hb
      exact hrel s hs cs (List.mem_singleton_self _)
    · intro x
      have hold := hcov x
      constructor
      · rintro (⟨s, hs, hsx⟩ | ⟨g, hg, hgx⟩)
        · rcases List.mem_append.mp hs with hs | hs
          · have h2 := hold.mp (Or.inl ⟨s, List.mem_append_left _ hs, hsx⟩)
            exact ⟨h2.1, le_trans h2.2 hle⟩
          · rw [List.mem_singleton] at hs
            subst hs
            rw [inSession_extendSession] at hsx
            exact ⟨le_trans hlo hsx.1, hsx.2⟩
        · have h2 := hold.mp (Or.inr ⟨g, hg, hgx⟩)
          exact ⟨h2.1, le_trans h2.2 hle⟩
      · rintro ⟨hx1, hx2⟩
        by_cases hxp : x ≤ pt
        · rcases hold.mpr ⟨hx1, hxp⟩ with (⟨s, hs, hsx⟩ | ⟨g, hg, hgx⟩)
          · rcases List.mem_append.mp hs with hs | hs
            · exact Or.inl ⟨s, List.mem_append_left _ hs, hsx⟩
            · rw [List.mem_singleton] at hs
              rw [hs] at hsx
              refine Or.inl ⟨extendSession cs a ta,
                List.mem_append_right _ (List.mem_singleton_self _), ?_⟩
              rw [inSession_extendSession]
              exact ⟨hsx.1, le_trans hxp hle⟩
          · exact Or.inr ⟨g, hg, hgx⟩
        · push_neg at hxp
          refine Or.inl ⟨extendSession cs a ta,
            List.mem_append_right _ (List.mem_singleton_self _), ?_⟩
          rw [inSession_extendSession]
          exact ⟨le_trans hstart (le_of_lt hxp), hx2⟩

theorem lastTime_eq (p : ActivityRecord) (l : List ActivityRecord) (h : p :: l ≠ []) :
    lastTime p l = sortKey ((p :: l).getLast h) := by
  induction l generalizing p with
  | nil => rfl
  | cons a l ih =>
    rw [lastTime, ih a (List.cons_ne_nil a l), List.getLast_cons_cons]

theorem segWalk_inv (rest : List ActivityRecord) :
    ∀ (st : SegState) (p : ActivityRecord) (i : Nat) (lo : Int),
      (∀ r ∈ rest, jsTimeOf r.created_at = some (sortKey r)) →
      jsTimeOf p.created_at = some (sortKey p) →
      List.Chain' (fun a b => sortKey a ≤ sortKey b) (p :: rest) →
      SegInv lo st (sortKey p) →
      SegInv lo (segWalk st (some p) i rest) (lastTime p rest) := by
  induction rest with
  | nil =>
    intro st p i lo _ _ _ hinv
    exact hinv
  | cons a rest ih =>
    intro st p i lo hvalid hp hchain hinv
    have ha : jsTimeOf a.created_at = some (sortKey a) := hvalid a (List.mem_cons_self a rest)
    have hle : sortKey p ≤ sortKey a := (List.chain'_cons.mp hchain).1
    have hstep := segStep_inv lo (sortKey p) (sortKey a) st p a i hp ha hle hinv
    exact ih (segStep st (some p) i a) a (i + 1) lo
      (fun r hr => hvalid r (List.mem_cons_of_mem a hr))
      ha (List.chain'_cons.mp hchain).2 hstep

/-- Claim C1: on a chronologically sorted record list with valid timestamps, the
sessions produced by analyzeWorkSessions are pairwise time-disjoint, and an
instant is covered by some session or gap exactly when it lies between the first
and the last record's timestamps. -/
theorem analyzeWorkSessions_partition (acts : List ActivityRecord)
    (a0 : ActivityRecord) (rest : List ActivityRecord) (hacts : acts = a0 :: rest)
    (hvalid : ∀ r ∈ acts, jsTimeOf r.created_at = some (sortKey r))
    (hsorted : acts.Pairwise fun a b => sortKey a ≤ sortKey b) :
    (analyzeWorkSessions acts).sessions.Pairwise sessionsDisjoint ∧
    ∀ x : Int, coveredBy (analyzeWorkSessions acts) x ↔
      sortKey a0 ≤ x ∧ x ≤ sortKey (acts.getLast (by simp [hacts])) := by
  subst hacts
  have hms : (a0 :: rest).mergeSort recLe = a0 :: rest := by
    apply List.mergeSort_of_sorted
    simpa [recLe, decide_eq_true_eq] using hsorted
  have h0 : jsTimeOf a0.created_at = some (sortKey a0) :=
    hvalid a0 (List.mem_cons_self a0 rest)
  have hstep0 : segStep initSegState none 0 a0 =
      { initSegState with
        sessionCounter := 1,
        currentSession := some (freshSession 1 a0 (sortKey a0)) } := by
    rw [segStep_some_time initSegState none 0 a0 (sortKey a0) h0, gapCheck_none]
    exact startOrExtend_none initSegState a0 (sortKey a0) rfl
  have hinv1 : SegInv (sortKey a0)
      { initSegState with
        sessionCounter := 1,
        currentSession := some (freshSession 1 a0 (sortKey a0)) } (sortKey a0) := by
    refine ⟨freshSession 1 a0 (sortKey a0), rfl, rfl, le_refl _, le_refl _, ?_, ?_⟩
    · exact List.pairwise_singleton endLtStart (freshSession 1 a0 (sortKey a0))
    · intro x
      constructor
      · rintro (⟨s, hs, hsx⟩ | ⟨g, hg, hgx⟩)
        · simp only [initSegState, List.nil_append, List.mem_singleton] at hs
          subst hs
          exact hsx
        · simp [initSegState] at hg
      · intro hx
        refine Or.inl ⟨freshSession 1 a0 (sortKey a0), ?_, hx⟩
        simp [initSegState]
  have hinv1' : SegInv (sortKey a0) (segStep initSegState none 0 a0) (sortKey a0) := by
    rw [hstep0]
    exact hinv1
  have hwalk : SegInv (sortKey a0) (segWalk initSegState none 0 (a0 :: rest))
      (lastTime a0 rest) :=
    segWalk_inv rest (segStep initSegState none 0 a0) a0 1 (sortKey a0)
      (fun r hr => hvalid r (List.mem_cons_of_mem a0 hr)) h0
      (List.Pairwise.chain' hsorted) hinv1'
  obtain ⟨csF, hcsF, hendF, hstartF, hloF, hpairF, hcovF⟩ := hwalk
  have hsess : (analyzeWorkSessions (a0 :: rest)).sessions =
      (segWalk initSegState none 0 (a0 :: rest)).sessions ++
        [{ csF with isComplete := false }] := by
    simp only [analyzeWorkSessions, List.isEmpty_cons, Bool.false_eq_true, if_false, hms, hcsF]
  have hgapsEq : (analyzeWorkSessions (a0 :: rest)).gaps =
      (segWalk initSegState none 0 (a0 :: rest)).gaps := by
    simp only [analyzeWorkSessions, List.isEmpty_cons, Bool.false_eq_true, if_false, hms]
  constructor
  · rw [hsess]
    have hpair2 : ((segWalk initSegState none 0 (a0 :: rest)).sessions ++
        [{ csF with isComplete := false }]).Pairwise endLtStart := by
      rw [List.pairwise_append] at hpairF ⊢
      obtain ⟨h1, _, h3⟩ := hpairF
      refine ⟨h1, List.pairwise_singleton _ _, ?_⟩
      intro s hs b hb
      rw [List.mem_singleton] at hb
      subst hb
      exact h3 s hs csF (List.mem_singleton_self _)
    exact hpair2.imp fun h => endLtStart_disjoint h
  · intro x
    rw [← lastTime_eq a0 rest]
    unfold coveredBy
    rw [hsess, hgapsEq]
    have hiff := hcovF x
    constructor
    · rintro (⟨s, hs, hsx⟩ | ⟨g, hg, hgx⟩)
      · rcases List.mem_append.mp hs with hs | hs
        · exact hiff.mp (Or.inl ⟨s, List.mem_append_left _ hs, hsx⟩)
        · rw [List.mem_singleton] at hs
          rw [hs] at hsx
          exact hiff.mp (Or.inl ⟨csF, List.mem_append_right _ (List.mem_singleton_self _), hsx⟩)
      · exact hiff.mp (Or.inr ⟨g, hg, hgx⟩)
    · intro hx
      rcases hiff.mpr hx with (⟨s, hs, hsx⟩ | ⟨g, hg, hgx⟩)
      · rcases List.mem_append.mp hs with hs | hs
        · exact Or.inl ⟨s, List.mem_append_left _ hs, hsx⟩
        · rw [List.mem_singleton] at hs
          rw [hs] at hsx
          exact Or.inl ⟨{ csF with isComplete := false },
            List.mem_append_right _ (List.mem_singleton_self _), hsx⟩
      · exact Or.inr ⟨g, hg, hgx⟩

/-- Witness for claim C1 at a concrete sorted two-record day. -/
theorem analyzeWorkSessions_partition_witness :
    (analyzeWorkSessions [mkRec 0, mkRec 60000]).sessions.Pairwise sessionsDisjoint :=
  (analyzeWorkSessions_partition [mkRec 0, mkRec 60000] (mkRec 0) [mkRec 60000] rfl
    (by decide) (by decide)).1
